import Mathlib

/-!
Formal model of the MODFLOW MNWI package codec (`flopy/modflow/mfmnwi.py`).

Python strings are modelled as `List Char` (`PStr`), text files as lists of
lines (each line keeping its trailing newline character, as produced by
Python file iteration and `f.write`).  The class `ModflowMnwi` is modelled by
the `Record` structure; its constructor *(`__init__`)* becomes `mnwiInit`,
the static `load` method becomes `load`, and `write_file` becomes
`write_file`.  Each observation entry (a Python list
`[wellid, unit, qndflag, qhbflag, ...]`) is modelled by `Entry`, whose
`rest` field holds the list items past index 3, so the Python list length is
`4 + rest.length`.

The helpers `line_parse` and `pop_item` live in `flopy/utils/flopy_io.py`,
which is not part of the sources at hand; they are modelled from the spec
(whitespace tokenization with inline-comment stripping, and popping the
first token with integer conversion failing as a format error).  Python's
`int()` conversion of a token is modelled by `pyInt?` (optional sign
followed by decimal digits).
-/

/-- Python strings are modelled as lists of characters. -/
abbrev PStr := List Char

/-- The character for a decimal digit value. -/
def digitChar (d : Nat) : Char := Char.ofNat (48 + d)

/-- The numeric value of a decimal digit character, if it is one. -/
def digitVal? (c : Char) : Option Nat :=
  if '0' ≤ c ∧ c ≤ '9' then some (c.toNat - 48) else none

/-- Little-endian decimal digits of a natural number, with explicit fuel so
that the recursion is structural. -/
def natToDigitsRev : Nat → Nat → List Nat
  | 0, _ => []
  | fuel + 1, n => if n = 0 then [] else n % 10 :: natToDigitsRev fuel (n / 10)

/-- Decimal rendering of a natural number, as Python's `'%i' % n`. -/
def natRepr (n : Nat) : PStr :=
  if n = 0 then ['0'] else ((natToDigitsRev n n).map digitChar).reverse

/-- Decimal rendering of an integer, as Python's `'%i' % n`. -/
def intRepr (i : Int) : PStr :=
  if i < 0 then '-' :: natRepr i.natAbs else natRepr i.natAbs

/-- Accumulator loop reading decimal digits; fails on a non-digit. -/
def parseDigitsAux : Nat → List Char → Option Nat
  | acc, [] => some acc
  | acc, c :: cs =>
    match digitVal? c with
    | some d => parseDigitsAux (10 * acc + d) cs
    | none => none

/-- Reads a non-empty all-digit string as a natural number. -/
def parseNatDigits? (cs : PStr) : Option Nat :=
  if cs.isEmpty then none else parseDigitsAux 0 cs

/-- Modelled from the spec: integer conversion of one whitespace-free token,
as performed by Python's `int()` on the tokens of this file format — an
optional sign followed by decimal digits; anything else is not an integer. -/
def pyInt? (cs : PStr) : Option Int :=
  match cs with
  | [] => none
  | c :: rest =>
    if c = '-' then (parseNatDigits? rest).map (fun n => -(n : Int))
    else if c = '+' then (parseNatDigits? rest).map (fun n => (n : Int))
    else (parseNatDigits? (c :: rest)).map (fun n => (n : Int))

/-- Right-justification in a fixed-width field, as Python's `'%\x77i'`-style
padding: pad on the left with spaces up to the width. -/
def rjust (w : Nat) (cs : PStr) : PStr :=
  List.replicate (w - cs.length) ' ' ++ cs

/-- Modelled from the spec: the shared line-tokenizing convention strips
inline comment markers; the comment marker evidenced by the file family's
heading lines is `#`, so everything from the first `#` on is dropped. -/
def dropComment : List Char → List Char
  | [] => []
  | c :: cs => if c = '#' then [] else c :: dropComment cs

/-- Whitespace tokenizer with an accumulator holding the (reversed) current
word. -/
def wordsAux : List Char → List Char → List PStr
  | [], acc => if acc.isEmpty then [] else [acc.reverse]
  | c :: cs, acc =>
    if c.isWhitespace then
      if acc.isEmpty then wordsAux cs [] else acc.reverse :: wordsAux cs []
    else wordsAux cs (c :: acc)

/-- Splits a list of characters into maximal whitespace-free words. -/
def words (cs : List Char) : List PStr := wordsAux cs []

/-- Modelled from the spec: `line_parse` splits a line into
whitespace-delimited tokens after stripping inline comment markers. -/
def line_parse (line : PStr) : List PStr := words (dropComment line)

/-- Errors of the codec.  Python `AssertionError`s raised by the validation
asserts are the spec's `ValidationError`; malformed or missing tokens are
the spec's `FormatError`; `typeError`, `indexError` and `endOfInput` model
the Python `TypeError`, `IndexError` and `StopIteration` exceptions. -/
inductive Err where
  | formatError (msg : String)
  | validationError (msg : String)
  | typeError (msg : String)
  | indexError
  | endOfInput
  deriving DecidableEq, Repr

/-- Modelled from the spec: `pop_item(line, str)` pops the first token as a
string; a missing required token is a format error. -/
def pop_item_str : List PStr → Except Err (PStr × List PStr)
  | [] => .error (Err.formatError "missing required token")
  | t :: rest => .ok (t, rest)

/-- Modelled from the spec: `pop_item(line, int)` pops the first token and
converts it to an integer; a missing token or a non-integer token is a
format error. -/
def pop_item_int (toks : List PStr) : Except Err (Int × List PStr) :=
  match toks with
  | [] => .error (Err.formatError "missing required token")
  | t :: rest =>
    match pyInt? t with
    | some n => .ok (n, rest)
    | none => .error (Err.formatError "non-integer token")

/-- The tuple unpacking `wel1flag, qsumflag, byndflag = map(int, line)` of
dataset 1: it succeeds exactly when the token list has exactly three
entries, all converting as integers. -/
def unpack3Int (toks : List PStr) : Except Err (Int × Int × Int) :=
  match toks with
  | [a, b, c] =>
    match pyInt? a, pyInt? b, pyInt? c with
    | some x, some y, some z => .ok (x, y, z)
    | _, _, _ => .error (Err.formatError "invalid integer token")
  | _ => .error (Err.formatError "wrong number of values to unpack")

/-- One observation entry: the Python list
`[wellid, unit, qndflag, qhbflag, ...]`; `rest` holds the items past
index 3, so the Python list length is `4 + rest.length` and a present
`concflag` is `rest`'s first element. -/
structure Entry where
  wellid : PStr
  unit : Int
  qndflag : Int
  qhbflag : Int
  rest : List Int
  deriving DecidableEq, Repr

/-- The `ModflowMnwi` object state after a successful `__init__`. -/
structure Record where
  wel1flag : Int
  qsumflag : Int
  byndflag : Int
  mnwobs : Int
  wellid_unit_qndflag_qhbflag_concflag : List Entry
  deriving DecidableEq, Repr

/-- Short accessor for the record's observation entry list. -/
def Record.obs (r : Record) : List Entry :=
  r.wellid_unit_qndflag_qhbflag_concflag

/-- The `ModflowMnwi.__init__` body: the three flag asserts run first, in
order; then `len(self.wellid_unit_qndflag_qhbflag_concflag)` is taken —
a `TypeError` when the argument was left as `None` — and compared with
`mnwobs`, a mismatch only printing a warning.  The returned Bool records
whether the warning was printed. -/
def mnwiInit (wel1flag qsumflag byndflag mnwobs : Int)
    (obs : Option (List Entry)) : Except Err (Record × Bool) :=
  if wel1flag < 0 then
    .error (Err.validationError "WEL1flag must be greater than or equal to zero.")
  else if qsumflag < 0 then
    .error (Err.validationError "QSUMflag must be greater than or equal to zero.")
  else if byndflag < 0 then
    .error (Err.validationError "BYNDflag must be greater than or equal to zero.")
  else
    match obs with
    | none => .error (Err.typeError "object of type NoneType has no len()")
    | some entries =>
      .ok (⟨wel1flag, qsumflag, byndflag, mnwobs, entries⟩,
        decide ((entries.length : Int) ≠ mnwobs))

/-- The host model's `add_package` registration: the package is appended to
the model's package list. -/
def add_package (host : List Record) (r : Record) : List Record := host ++ [r]

/-- Constructing a `ModflowMnwi` against a host model: on success the record
is registered with the host (`self.parent.add_package(self)`, the last
statement of `__init__`); on any exception the host is left untouched. -/
def mnwiConstruct (host : List Record) (wel1flag qsumflag byndflag mnwobs : Int)
    (obs : Option (List Entry)) : List Record × Except Err (Record × Bool) :=
  match mnwiInit wel1flag qsumflag byndflag mnwobs obs with
  | .ok rw => (add_package host rw.1, .ok rw)
  | .error e => (host, .error e)

/-- Parsing one dataset-3 entry line: pop `wellid` as a string, then
`unit`, `qndflag`, `qhbflag` as integers; when `gwt` is set and a token
remains, pop it as the integer `concflag`. -/
def loadEntry (gwt : Bool) (line : PStr) : Except Err Entry :=
  match pop_item_str (line_parse line) with
  | .error er => .error er
  | .ok (wid, r1) =>
    match pop_item_int r1 with
    | .error er => .error er
    | .ok (unit, r2) =>
      match pop_item_int r2 with
      | .error er => .error er
      | .ok (qnd, r3) =>
        match pop_item_int r3 with
        | .error er => .error er
        | .ok (qhb, r4) =>
          if gwt ∧ r4.length > 0 then
            match pop_item_int r4 with
            | .error er => .error er
            | .ok (cf, _) => .ok ⟨wid, unit, qnd, qhb, [cf]⟩
          else .ok ⟨wid, unit, qnd, qhb, []⟩

/-- The dataset-3 loop: read exactly `n` entry lines, one line per entry. -/
def loadEntries (gwt : Bool) : Nat → List PStr → Except Err (List Entry × List PStr)
  | 0, lines => .ok ([], lines)
  | n + 1, lines =>
    match lines with
    | [] => .error Err.endOfInput
    | l :: rest =>
      match loadEntry gwt l with
      | .error er => .error er
      | .ok e =>
        match loadEntries gwt n rest with
        | .error er => .error er
        | .ok (es, rem) => .ok (e :: es, rem)

/-- `ModflowMnwi.load`: dataset 1 (three integers from the first line),
dataset 2 (`mnwobs` from the second line), then `mnwobs` dataset-3 entry
lines when `mnwobs > 0`, and finally the `ModflowMnwi(...)` construction.
The unread tail of the line stream is returned alongside the result. -/
def load (gwt : Bool) (lines : List PStr) :
    Except Err ((Record × Bool) × List PStr) :=
  match lines with
  | [] => .error Err.endOfInput
  | l1 :: r1 =>
    match unpack3Int (line_parse l1) with
    | .error er => .error er
    | .ok (w, q, b) =>
      match r1 with
      | [] => .error Err.endOfInput
      | l2 :: r2 =>
        match pop_item_int (line_parse l2) with
        | .error er => .error er
        | .ok (mnwobs, _) =>
          match (if mnwobs > 0 then loadEntries gwt mnwobs.toNat r2
                 else .ok ([], r2)) with
          | .error er => .error er
          | .ok (es, r3) =>
            match mnwiInit w q b mnwobs (some es) with
            | .error er => .error er
            | .ok rw => .ok (rw, r3)

/-- The heading comment written as the first line of the file. -/
def headingStr : PStr :=
  "# Multi-node well information (MNWI) file for MODFLOW, generated by Flopy".toList

/-- The heading line including its newline (`'%s\n' % self.heading`). -/
def headingLine : PStr := headingStr ++ ['\n']

/-- Dataset-1 output line: `'%10i%10i%10i\n' % (wel1flag, qsumflag, byndflag)`. -/
def line1Str (r : Record) : PStr :=
  rjust 10 (intRepr r.wel1flag) ++
    (rjust 10 (intRepr r.qsumflag) ++ (rjust 10 (intRepr r.byndflag) ++ ['\n']))

/-- Dataset-2 output line: `'%10i\n' % mnwobs`. -/
def line2Str (r : Record) : PStr :=
  rjust 10 (intRepr r.mnwobs) ++ ['\n']

/-- A four-field dataset-3 output line:
`'%s %2i%10i%10i\n' % (wellid, unit, qndflag, qhbflag)`. -/
def entryLine4 (e : Entry) : PStr :=
  e.wellid ++ ' ' ::
    (rjust 2 (intRepr e.unit) ++
      (rjust 10 (intRepr e.qndflag) ++ (rjust 10 (intRepr e.qhbflag) ++ ['\n'])))

/-- A five-field dataset-3 output line:
`'%s %2i%10i%10i%10i\n' % (wellid, unit, qndflag, qhbflag, concflag)`. -/
def entryLine5 (e : Entry) (cf : Int) : PStr :=
  e.wellid ++ ' ' ::
    (rjust 2 (intRepr e.unit) ++
      (rjust 10 (intRepr e.qndflag) ++
        (rjust 10 (intRepr e.qhbflag) ++ (rjust 10 (intRepr cf) ++ ['\n']))))

/-- The body of one `write_file` loop iteration for entry `e`: the two flag
asserts (the spec's serialize-time revalidation), then the dispatch on the
Python list length — 4 writes a four-field line, 5 checks `concflag`'s
bounds and writes a five-field line, and any other length writes nothing. -/
def writeEntryLine (e : Entry) : Except Err (Option PStr) :=
  if e.qndflag < 0 then
    .error (Err.validationError "QNDflag must be greater than or equal to zero.")
  else if e.qhbflag < 0 then
    .error (Err.validationError "QHBflag must be greater than or equal to zero.")
  else
    match e.rest with
    | [] => .ok (some (entryLine4 e))
    | [cf] =>
      if cf < 0 ∨ 3 < cf then
        .error (Err.validationError "CONCflag must be an integer between 0 and 3.")
      else .ok (some (entryLine5 e cf))
    | _ => .ok none

/-- The `write_file` dataset-3 loop over the index range: each index fetches
`self.wellid_unit_qndflag_qhbflag_concflag[i]` (an `IndexError` when out of
range) and runs `writeEntryLine`.  Returns the lines written so far and the
first error, if any; lines written before a failure remain written. -/
def writeObs (obs : List Entry) : List Nat → List PStr × Option Err
  | [] => ([], none)
  | i :: is =>
    match obs[i]? with
    | none => ([], some Err.indexError)
    | some e =>
      match writeEntryLine e with
      | .error er => ([], some er)
      | .ok none => writeObs obs is
      | .ok (some l) =>
        match writeObs obs is with
        | (ls, er) => (l :: ls, er)

/-- `ModflowMnwi.write_file`: the heading line, dataset 1, dataset 2, then
the dataset-3 loop `for i in range(self.mnwobs)`.  The result is the list
of lines written to the file together with the error aborting the write,
if any. -/
def write_file (r : Record) : List PStr × Option Err :=
  match writeObs r.obs (List.range r.mnwobs.toNat) with
  | (ls, er) => (headingLine :: line1Str r :: line2Str r :: ls, er)

/-- The line a 4-or-5-field entry would be written as; `none` for the other
lengths, which `write_file` silently skips. -/
def entryLine? (e : Entry) : Option PStr :=
  match e.rest with
  | [] => some (entryLine4 e)
  | [cf] => some (entryLine5 e cf)
  | _ => none

/-- The line emitted for an entry whose Python list length is 4 or 5. -/
def entryEmit (e : Entry) : PStr :=
  match e.rest with
  | [] => entryLine4 e
  | cf :: _ => entryLine5 e cf

/-- An entry the `write_file` loop processes without raising: the two
revalidated flags are non-negative and, when the entry has exactly five
fields, its `concflag` lies in `[0, 3]`. -/
def EntryWritable (e : Entry) : Prop :=
  0 ≤ e.qndflag ∧ 0 ≤ e.qhbflag ∧
    (e.rest.length = 1 → ∀ cf ∈ e.rest, 0 ≤ cf ∧ cf ≤ 3)

instance (e : Entry) : Decidable (EntryWritable e) := by
  unfold EntryWritable; infer_instance

/-- An entry that round-trips through `write_file` and `load` in mode
`gwt`: a non-empty `wellid` free of whitespace and of the comment marker,
flags non-negative and fitting the 10-character field next to a space, and
either no `concflag` or (in solute-transport mode) one in `[0, 3]`. -/
def EntryGood (gwt : Bool) (e : Entry) : Prop :=
  e.wellid ≠ [] ∧
    (∀ c ∈ e.wellid, c.isWhitespace = false ∧ c ≠ '#') ∧
    0 ≤ e.qndflag ∧ e.qndflag < 10 ^ 9 ∧
    0 ≤ e.qhbflag ∧ e.qhbflag < 10 ^ 9 ∧
    (e.rest = [] ∨
      (gwt = true ∧ e.rest.length = 1 ∧ ∀ cf ∈ e.rest, 0 ≤ cf ∧ cf ≤ 3))

instance (gwt : Bool) (e : Entry) : Decidable (EntryGood gwt e) := by
  unfold EntryGood; infer_instance

deriving instance DecidableEq for Except

/-! ### Concrete sample data used by witnesses and counterexamples -/

/-- The spec's concrete scenario A record: two observations, the second
carrying a `concflag`. -/
def c1rec : Record :=
  ⟨1, 1, 1, 2, [⟨"WELL-A".toList, 5, 0, 1, []⟩, ⟨"WELL-B".toList, 6, 1, 0, [2]⟩]⟩

/-- A validated, mismatch-free record whose `wellid` contains the comment
marker, so its serialized entry line tokenizes to nothing. -/
def c1bad : Record := ⟨1, 1, 1, 1, [⟨"#A".toList, 1, 0, 1, []⟩]⟩

/-- A record with `mnwobs = 5` but only three (individually valid) entries. -/
def c3rec : Record :=
  ⟨1, 1, 1, 5, [⟨"A".toList, 1, 0, 1, []⟩, ⟨"B".toList, 1, 0, 1, []⟩,
    ⟨"C".toList, 1, 0, 1, []⟩]⟩

/-- A record whose second entry has a negative `qndflag`, but `mnwobs = 1`,
so the write loop never reaches the offending entry. -/
def c4rec : Record :=
  ⟨1, 1, 1, 1, [⟨"A".toList, 1, 0, 1, []⟩, ⟨"B".toList, 1, -1, 1, []⟩]⟩

/-- A count-mismatched record for the amended serialize-revalidation
theorem: `mnwobs = 2` but three entries, the second of which has a negative
`qndflag` and lies inside the loop range. -/
def c4rec3 : Record :=
  ⟨1, 1, 1, 2, [⟨"A".toList, 1, 0, 1, []⟩, ⟨"B".toList, 1, -1, 1, []⟩,
    ⟨"C".toList, 1, 0, 1, []⟩]⟩

/-- A validated record with `mnwobs = 1` but no entries. -/
def c5rec : Record := ⟨1, 1, 1, 1, []⟩

/-- A record whose only entry has six Python list fields. -/
def c10rec : Record := ⟨1, 1, 1, 1, [⟨"A".toList, 1, 0, 1, [0, 0]⟩]⟩

/-- Dataset-1 sample line `1 1 1`. -/
def dline111 : PStr := "1 1 1\n".toList

/-- Dataset-2 sample line declaring zero observations. -/
def dline0 : PStr := "0\n".toList

/-- Dataset-2 sample line declaring one observation. -/
def dline1 : PStr := "1\n".toList

/-- A five-token entry line from the spec's scenario A. -/
def c6line : PStr := "WELL-B  6         1         0         2\n".toList

/-- A first line with four integer tokens. -/
def c8line4 : PStr := "1 2 3 4\n".toList

/-- A first line with only two tokens. -/
def c8line2 : PStr := "1 2\n".toList

/-! ### Decimal rendering and parsing -/

lemma digitVal?_digitChar {d : Nat} (hd : d < 10) : digitVal? (digitChar d) = some d := by
  interval_cases d <;> decide

lemma digitChar_facts {d : Nat} (hd : d < 10) :
    (digitChar d).isWhitespace = false ∧ digitChar d ≠ '#' ∧
      digitChar d ≠ '-' ∧ digitChar d ≠ '+' := by
  interval_cases d <;> decide

lemma natToDigitsRev_eq_digits : ∀ (fuel n : Nat), n ≤ fuel →
    natToDigitsRev fuel n = Nat.digits 10 n := by
  intro fuel
  induction fuel with
  | zero =>
    intro n hn
    have : n = 0 := by omega
    subst this
    simp [natToDigitsRev]
  | succ fuel ih =>
    intro n hn
    by_cases h0 : n = 0
    · subst h0; simp [natToDigitsRev]
    · have hdiv : n / 10 < n := Nat.div_lt_self (by omega) (by omega)
      rw [Nat.digits_def' (by norm_num : (1 : Nat) < 10) (show 0 < n by omega)]
      rw [natToDigitsRev, if_neg h0, ih (n / 10) (by omega)]

lemma natRepr_eq {n : Nat} (h : n ≠ 0) :
    natRepr n = ((Nat.digits 10 n).map digitChar).reverse := by
  rw [natRepr, if_neg h, natToDigitsRev_eq_digits n n le_rfl]

lemma natRepr_ne_nil (n : Nat) : natRepr n ≠ [] := by
  by_cases h : n = 0
  · subst h; simp [natRepr]
  · rw [natRepr_eq h]
    simp [Nat.digits_ne_nil_iff_ne_zero.mpr h]

lemma mem_natRepr {c : Char} {n : Nat} (hc : c ∈ natRepr n) :
    ∃ d, d < 10 ∧ c = digitChar d := by
  by_cases h : n = 0
  · subst h
    simp [natRepr] at hc
    exact ⟨0, by omega, by rw [hc]; rfl⟩
  · rw [natRepr_eq h] at hc
    rw [List.mem_reverse] at hc
    obtain ⟨d, hd, rfl⟩ := List.mem_map.mp hc
    exact ⟨d, Nat.digits_lt_base (by norm_num) hd, rfl⟩

lemma natRepr_length_le {n : Nat} (h : n < 10 ^ 9) : (natRepr n).length ≤ 9 := by
  by_cases h0 : n = 0
  · subst h0; simp [natRepr]
  · rw [natRepr_eq h0]
    rw [List.length_reverse, List.length_map]
    by_contra hlen
    push_neg at hlen
    have h1 := Nat.base_pow_length_digits_le 10 n (by norm_num) h0
    have h2 : (10 : Nat) ^ 10 ≤ 10 ^ (Nat.digits 10 n).length :=
      Nat.pow_le_pow_right (by norm_num) (by omega)
    have h3 : 10 * n < 10 ^ 10 := by
      calc 10 * n < 10 * 10 ^ 9 := by omega
        _ = 10 ^ 10 := by norm_num
    omega

lemma parseDigitsAux_append : ∀ (xs ys : List Char) (acc : Nat),
    parseDigitsAux acc (xs ++ ys) =
      (parseDigitsAux acc xs).bind (fun a => parseDigitsAux a ys) := by
  intro xs
  induction xs with
  | nil => intro ys acc; simp [parseDigitsAux]
  | cons c cs ih =>
    intro ys acc
    rw [List.cons_append, parseDigitsAux, parseDigitsAux]
    cases hdv : digitVal? c with
    | none => simp
    | some d => simp [ih]

lemma parseDigitsAux_digits : ∀ (L : List Nat) (acc : Nat), (∀ d ∈ L, d < 10) →
    parseDigitsAux acc ((L.map digitChar).reverse) =
      some (acc * 10 ^ L.length + Nat.ofDigits 10 L) := by
  intro L
  induction L with
  | nil => intro acc _; simp [parseDigitsAux, Nat.ofDigits_nil]
  | cons x L ih =>
    intro acc hL
    have hx : x < 10 := hL x (List.mem_cons_self x L)
    rw [List.map_cons, List.reverse_cons, parseDigitsAux_append,
      ih acc (fun d hd => hL d (List.mem_cons_of_mem x hd))]
    simp only [Option.some_bind]
    simp [parseDigitsAux, digitVal?_digitChar hx, Nat.ofDigits_cons]
    ring

lemma parseNatDigits?_natRepr (n : Nat) : parseNatDigits? (natRepr n) = some n := by
  by_cases h : n = 0
  · subst h; decide
  · have hne := natRepr_ne_nil n
    rw [natRepr_eq h] at hne ⊢
    rw [parseNatDigits?, if_neg (by simpa [List.isEmpty_iff] using hne)]
    rw [parseDigitsAux_digits (Nat.digits 10 n) 0
      (fun d hd => Nat.digits_lt_base (by norm_num) hd)]
    simp [Nat.ofDigits_digits]

lemma pyInt?_intRepr (i : Int) : pyInt? (intRepr i) = some i := by
  by_cases hneg : i < 0
  · rw [intRepr, if_pos hneg, pyInt?, if_pos rfl, parseNatDigits?_natRepr]
    simp
    rw [abs_of_neg hneg]
    ring
  · rw [intRepr, if_neg hneg]
    obtain ⟨c, cs, hcs⟩ := List.exists_cons_of_ne_nil (natRepr_ne_nil i.natAbs)
    have hcmem : c ∈ natRepr i.natAbs := by rw [hcs]; exact List.mem_cons_self c cs
    obtain ⟨d, hd, rfl⟩ := mem_natRepr hcmem
    obtain ⟨-, -, hdash, hplus⟩ := digitChar_facts hd
    rw [hcs, pyInt?, if_neg hdash, if_neg hplus, ← hcs, parseNatDigits?_natRepr]
    simp
    exact not_lt.mp hneg

lemma intRepr_ne_nil (i : Int) : intRepr i ≠ [] := by
  rw [intRepr]
  split
  · simp
  · exact natRepr_ne_nil i.natAbs

lemma mem_intRepr {c : Char} {i : Int} (hc : c ∈ intRepr i) :
    c.isWhitespace = false ∧ c ≠ '#' := by
  rw [intRepr] at hc
  by_cases hneg : i < 0
  · rw [if_pos hneg] at hc
    rcases List.mem_cons.mp hc with h | h
    · subst h; decide
    · obtain ⟨d, hd, rfl⟩ := mem_natRepr h
      obtain ⟨hws, hh, -, -⟩ := digitChar_facts hd
      exact ⟨hws, hh⟩
  · rw [if_neg hneg] at hc
    obtain ⟨d, hd, rfl⟩ := mem_natRepr hc
    obtain ⟨hws, hh, -, -⟩ := digitChar_facts hd
    exact ⟨hws, hh⟩

lemma intRepr_length_le {i : Int} (h0 : 0 ≤ i) (h9 : i < 10 ^ 9) :
    (intRepr i).length ≤ 9 := by
  rw [intRepr, if_neg (by omega)]
  apply natRepr_length_le
  omega

/-! ### Tokenization -/

lemma dropComment_eq_self : ∀ {cs : List Char}, (∀ c ∈ cs, c ≠ '#') →
    dropComment cs = cs := by
  intro cs
  induction cs with
  | nil => intro _; rfl
  | cons c cs ih =>
    intro h
    rw [dropComment, if_neg (h c (List.mem_cons_self c cs)),
      ih (fun d hd => h d (List.mem_cons_of_mem c hd))]

lemma words_ws_cons {c : Char} (h : c.isWhitespace = true) (cs : List Char) :
    words (c :: cs) = words cs := by
  simp [words, wordsAux, h, List.isEmpty]

lemma words_replicate_space : ∀ (n : Nat) (cs : List Char),
    words (List.replicate n ' ' ++ cs) = words cs := by
  intro n
  induction n with
  | zero => intro cs; simp
  | succ n ih =>
    intro cs
    rw [List.replicate_succ, List.cons_append, words_ws_cons (by decide), ih]

lemma wordsAux_token : ∀ (w acc cs : List Char), w ≠ [] →
    (∀ c ∈ w, c.isWhitespace = false) →
    (cs = [] ∨ ∃ d ds, cs = d :: ds ∧ d.isWhitespace = true) →
    wordsAux (w ++ cs) acc = (acc.reverse ++ w) :: words cs := by
  intro w
  induction w with
  | nil => intro acc cs h; exact absurd rfl h
  | cons a w ih =>
    intro acc cs _ hnw hcs
    have ha : a.isWhitespace = false := hnw a (List.mem_cons_self a w)
    rw [List.cons_append, wordsAux, if_neg (by rw [ha]; exact Bool.false_ne_true)]
    by_cases hw : w = []
    · subst hw
      simp only [List.nil_append]
      rcases hcs with rfl | ⟨d, ds, rfl, hd⟩
      · rw [wordsAux]
        simp [words, wordsAux, List.isEmpty]
      · rw [wordsAux, if_pos hd, if_neg (by simp [List.isEmpty])]
        rw [words_ws_cons hd]
        simp [words]
    · rw [ih (a :: acc) cs hw (fun c hc => hnw c (List.mem_cons_of_mem a hc)) hcs]
      simp

lemma words_token {w cs : List Char} (hw : w ≠ [])
    (hnw : ∀ c ∈ w, c.isWhitespace = false)
    (hcs : cs = [] ∨ ∃ d ds, cs = d :: ds ∧ d.isWhitespace = true) :
    words (w ++ cs) = w :: words cs := by
  rw [words, wordsAux_token w [] cs hw hnw hcs]
  simp

lemma words_pad_token {p : Nat} {t cs : List Char} (ht : t ≠ [])
    (hnw : ∀ c ∈ t, c.isWhitespace = false)
    (hcs : cs = [] ∨ ∃ d ds, cs = d :: ds ∧ d.isWhitespace = true) :
    words (List.replicate p ' ' ++ (t ++ cs)) = t :: words cs := by
  rw [words_replicate_space, words_token ht hnw hcs]

lemma replicate_space_head {p : Nat} (hp : 0 < p) (X : List Char) :
    ∃ d ds, List.replicate p ' ' ++ X = d :: ds ∧ d.isWhitespace = true := by
  obtain ⟨p', rfl⟩ := Nat.exists_eq_add_of_lt hp
  refine ⟨' ', List.replicate (0 + p') ' ' ++ X, ?_, by decide⟩
  rw [show 0 + p' + 1 = (0 + p') + 1 by omega, List.replicate_succ, List.cons_append]

lemma words_newline : words ['\n'] = [] := by decide

/-- A token as emitted into a fixed-width field: non-empty, whitespace-free
and free of the comment marker. -/
def CleanTok (t : PStr) : Prop :=
  t ≠ [] ∧ ∀ c ∈ t, c.isWhitespace = false ∧ c ≠ '#'

lemma cleanTok_intRepr (i : Int) : CleanTok (intRepr i) :=
  ⟨intRepr_ne_nil i, fun _ hc => mem_intRepr hc⟩

lemma noHash_append {xs ys : List Char} (hx : ∀ c ∈ xs, c ≠ '#')
    (hy : ∀ c ∈ ys, c ≠ '#') : ∀ c ∈ xs ++ ys, c ≠ '#' :=
  fun c hc => (List.mem_append.mp hc).elim (hx c) (hy c)

lemma noHash_rjust {k : Nat} {t : PStr} (h : CleanTok t) :
    ∀ c ∈ rjust k t, c ≠ '#' := by
  intro c hc
  rcases List.mem_append.mp hc with h1 | h2
  · rw [List.eq_of_mem_replicate h1]; decide
  · exact (h.2 c h2).2

lemma noHash_newline : ∀ c ∈ ['\n'], c ≠ '#' := by decide

lemma line_parse_3fields {t1 t2 t3 : PStr}
    (h1 : CleanTok t1) (h2 : CleanTok t2) (h3 : CleanTok t3)
    (hl2 : t2.length ≤ 9) (hl3 : t3.length ≤ 9) :
    line_parse (rjust 10 t1 ++ (rjust 10 t2 ++ (rjust 10 t3 ++ ['\n']))) =
      [t1, t2, t3] := by
  have hnh : ∀ c ∈ rjust 10 t1 ++ (rjust 10 t2 ++ (rjust 10 t3 ++ ['\n'])), c ≠ '#' :=
    noHash_append (noHash_rjust h1)
      (noHash_append (noHash_rjust h2) (noHash_append (noHash_rjust h3) noHash_newline))
  rw [line_parse, dropComment_eq_self hnh]
  simp only [rjust, List.append_assoc]
  rw [words_pad_token h1.1 (fun c hc => (h1.2 c hc).1)
    (Or.inr (replicate_space_head (by omega) _))]
  rw [words_pad_token h2.1 (fun c hc => (h2.2 c hc).1)
    (Or.inr (replicate_space_head (by omega) _))]
  rw [words_pad_token h3.1 (fun c hc => (h3.2 c hc).1)
    (Or.inr ⟨'\n', [], rfl, by decide⟩)]
  rw [words_newline]

lemma line_parse_1field {t : PStr} (h : CleanTok t) :
    line_parse (rjust 10 t ++ ['\n']) = [t] := by
  have hnh : ∀ c ∈ rjust 10 t ++ ['\n'], c ≠ '#' :=
    noHash_append (noHash_rjust h) noHash_newline
  rw [line_parse, dropComment_eq_self hnh]
  simp only [rjust, List.append_assoc]
  rw [words_pad_token h.1 (fun c hc => (h.2 c hc).1) (Or.inr ⟨'\n', [], rfl, by decide⟩)]
  rw [words_newline]

/-! ### Serialization lemmas -/

lemma entryGood_writable {gwt : Bool} {e : Entry} (h : EntryGood gwt e) :
    EntryWritable e := by
  obtain ⟨-, -, hq0, -, hh0, -, hrest⟩ := h
  refine ⟨hq0, hh0, ?_⟩
  intro _ cf hcf
  rcases hrest with hre | ⟨-, -, hbound⟩
  · rw [hre] at hcf; cases hcf
  · exact hbound cf hcf

lemma entryGood_rest_le {gwt : Bool} {e : Entry} (h : EntryGood gwt e) :
    e.rest.length ≤ 1 := by
  rcases h.2.2.2.2.2.2 with hre | ⟨-, hlen, -⟩
  · simp [hre]
  · omega

lemma writeEntryLine_writable {e : Entry} (he : EntryWritable e) :
    writeEntryLine e = .ok (entryLine? e) := by
  obtain ⟨h1, h2, h3⟩ := he
  rcases hre : e.rest with _ | ⟨cf, _ | ⟨c2, t⟩⟩
  · simp [writeEntryLine, entryLine?, hre, not_lt.mpr h1, not_lt.mpr h2]
  · have hcf := h3 (by rw [hre]; rfl) cf (by rw [hre]; exact List.mem_cons_self cf [])
    simp only [writeEntryLine, entryLine?, hre, if_neg (not_lt.mpr h1),
      if_neg (not_lt.mpr h2)]
    rw [if_neg (by omega)]
  · simp [writeEntryLine, entryLine?, hre, not_lt.mpr h1, not_lt.mpr h2]

lemma getElem?_of_drop_cons {obs suf : List Entry} {e : Entry} {k : Nat}
    (hdrop : obs.drop k = e :: suf) : obs[k]? = some e := by
  have h0 := List.getElem?_drop obs k 0
  rw [hdrop] at h0
  simpa using h0.symm

lemma drop_succ_of_drop_cons {obs suf : List Entry} {e : Entry} {k : Nat}
    (hdrop : obs.drop k = e :: suf) : obs.drop (k + 1) = suf := by
  have h1 := List.drop_drop 1 k obs
  rw [hdrop] at h1
  simpa using h1.symm

lemma writeObs_cons_some {obs : List Entry} {i : Nat} {is : List Nat} {e : Entry}
    (hk : obs[i]? = some e) :
    writeObs obs (i :: is) =
      match writeEntryLine e with
      | .error er => ([], some er)
      | .ok none => writeObs obs is
      | .ok (some l) =>
        match writeObs obs is with
        | (ls, er) => (l :: ls, er) := by
  rw [writeObs, hk]

lemma writeObs_drop (obs : List Entry) : ∀ (k : Nat) (suf : List Entry),
    obs.drop k = suf → (∀ e ∈ suf, EntryWritable e) →
    writeObs obs (List.range' k suf.length) = (suf.filterMap entryLine?, none) := by
  intro k suf
  induction suf generalizing k with
  | nil => intro _ _; simp [writeObs]
  | cons e suf ih =>
    intro hdrop hwr
    have hk := getElem?_of_drop_cons hdrop
    have ihs := ih (k + 1) (drop_succ_of_drop_cons hdrop)
      (fun x hx => hwr x (List.mem_cons_of_mem e hx))
    rw [List.length_cons, List.range'_succ, writeObs_cons_some hk,
      writeEntryLine_writable (hwr e (List.mem_cons_self e suf))]
    cases hel : entryLine? e with
    | none =>
      rw [ihs]
      simp [List.filterMap_cons, hel]
    | some l =>
      rw [ihs]
      simp [List.filterMap_cons, hel]

lemma writeObs_overrun (obs : List Entry) : ∀ (k n : Nat) (suf : List Entry),
    obs.drop k = suf → (∀ e ∈ suf, EntryWritable e) → suf.length < n →
    writeObs obs (List.range' k n) = (suf.filterMap entryLine?, some Err.indexError) := by
  intro k n suf
  induction suf generalizing k n with
  | nil =>
    intro hdrop _ hn
    obtain ⟨m, rfl⟩ : ∃ m, n = m + 1 := ⟨n - 1, by omega⟩
    have hk : obs[k]? = none :=
      List.getElem?_eq_none (List.drop_eq_nil_iff.mp hdrop)
    rw [List.range'_succ, writeObs, hk]
    simp
  | cons e suf ih =>
    intro hdrop hwr hn
    obtain ⟨m, rfl⟩ : ∃ m, n = m + 1 := ⟨n - 1, by omega⟩
    have hk := getElem?_of_drop_cons hdrop
    have ihs := ih (k + 1) m (drop_succ_of_drop_cons hdrop)
      (fun x hx => hwr x (List.mem_cons_of_mem e hx)) (by simp at hn; omega)
    rw [List.range'_succ, writeObs_cons_some hk,
      writeEntryLine_writable (hwr e (List.mem_cons_self e suf))]
    cases hel : entryLine? e with
    | none =>
      rw [ihs]
      simp [List.filterMap_cons, hel]
    | some l =>
      rw [ihs]
      simp [List.filterMap_cons, hel]

lemma writeObs_bad_within (obs : List Entry) : ∀ (k : Nat) (pre : List Entry)
    (post : List Entry) (bad : Entry) (er : Err) (n : Nat),
    obs.drop k = pre ++ bad :: post → (∀ e ∈ pre, EntryWritable e) →
    writeEntryLine bad = .error er → pre.length < n →
    writeObs obs (List.range' k n) = (pre.filterMap entryLine?, some er) := by
  intro k pre
  induction pre generalizing k with
  | nil =>
    intro post bad er n hdrop _ hbad hn
    obtain ⟨m, rfl⟩ : ∃ m, n = m + 1 := ⟨n - 1, by omega⟩
    rw [List.nil_append] at hdrop
    have hk := getElem?_of_drop_cons hdrop
    rw [List.range'_succ, writeObs_cons_some hk, hbad]
    simp
  | cons e pre ih =>
    intro post bad er n hdrop hwr hbad hn
    obtain ⟨m, rfl⟩ : ∃ m, n = m + 1 := ⟨n - 1, by omega⟩
    rw [List.cons_append] at hdrop
    have hk := getElem?_of_drop_cons hdrop
    have ihs := ih (k + 1) post bad er m (drop_succ_of_drop_cons hdrop)
      (fun x hx => hwr x (List.mem_cons_of_mem e hx)) hbad
      (by simp only [List.length_cons] at hn; omega)
    rw [List.range'_succ, writeObs_cons_some hk,
      writeEntryLine_writable (hwr e (List.mem_cons_self e pre))]
    cases hel : entryLine? e with
    | none =>
      rw [ihs]
      simp [List.filterMap_cons, hel]
    | some l =>
      rw [ihs]
      simp [List.filterMap_cons, hel]

lemma writeEntryLine_offending {e : Entry}
    (h : e.qndflag < 0 ∨ e.qhbflag < 0 ∨
      (e.rest.length = 1 ∧ ∀ cf ∈ e.rest, cf < 0 ∨ 3 < cf)) :
    ∃ msg, writeEntryLine e = .error (Err.validationError msg) := by
  by_cases h1 : e.qndflag < 0
  · exact ⟨_, by rw [writeEntryLine, if_pos h1]⟩
  · by_cases h2 : e.qhbflag < 0
    · exact ⟨_, by rw [writeEntryLine, if_neg h1, if_pos h2]⟩
    · rcases h with h | h | ⟨hlen, hcf⟩
      · exact absurd h h1
      · exact absurd h h2
      · rcases hre : e.rest with _ | ⟨cf, _ | ⟨c2, t⟩⟩
        · rw [hre] at hlen; simp at hlen
        · refine ⟨"CONCflag must be an integer between 0 and 3.", ?_⟩
          have hbd := hcf cf (by rw [hre]; exact List.mem_cons_self cf [])
          have hstep : writeEntryLine e =
              if cf < 0 ∨ 3 < cf then
                .error (Err.validationError "CONCflag must be an integer between 0 and 3.")
              else .ok (some (entryLine5 e cf)) := by
            rw [writeEntryLine, if_neg h1, if_neg h2, hre]
          rw [hstep, if_pos hbd]
        · rw [hre] at hlen; simp at hlen

lemma filterMap_entryEmit {l : List Entry} (h : ∀ e ∈ l, e.rest.length ≤ 1) :
    l.filterMap entryLine? = l.map entryEmit := by
  induction l with
  | nil => rfl
  | cons e l ih =>
    have he := h e (List.mem_cons_self e l)
    have hel : entryLine? e = some (entryEmit e) := by
      rcases hre : e.rest with _ | ⟨cf, _ | ⟨c2, t⟩⟩
      · simp [entryLine?, entryEmit, hre]
      · simp [entryLine?, entryEmit, hre]
      · rw [hre] at he; simp at he
    simp [List.filterMap_cons, hel, ih (fun x hx => h x (List.mem_cons_of_mem e hx))]

/-! ### Parsing lemmas -/

lemma line_parse_entry4 {wid tu tq th : PStr}
    (hw : CleanTok wid) (hu : CleanTok tu) (hq : CleanTok tq) (hh : CleanTok th)
    (hlq : tq.length ≤ 9) (hlh : th.length ≤ 9) :
    line_parse (wid ++ ' ' :: (rjust 2 tu ++ (rjust 10 tq ++ (rjust 10 th ++ ['\n'])))) =
      [wid, tu, tq, th] := by
  have hX : ∀ c ∈ rjust 2 tu ++ (rjust 10 tq ++ (rjust 10 th ++ ['\n'])), c ≠ '#' :=
    noHash_append (noHash_rjust hu)
      (noHash_append (noHash_rjust hq) (noHash_append (noHash_rjust hh) noHash_newline))
  have hall : ∀ c ∈ wid ++ ' ' ::
      (rjust 2 tu ++ (rjust 10 tq ++ (rjust 10 th ++ ['\n']))), c ≠ '#' := by
    intro c hc
    rcases List.mem_append.mp hc with h1 | h2
    · exact (hw.2 c h1).2
    · rcases List.mem_cons.mp h2 with rfl | h3
      · decide
      · exact hX c h3
  rw [line_parse, dropComment_eq_self hall]
  rw [words_token hw.1 (fun c hc => (hw.2 c hc).1) (Or.inr ⟨' ', _, rfl, by decide⟩)]
  rw [words_ws_cons (by decide)]
  simp only [rjust, List.append_assoc]
  rw [words_pad_token hu.1 (fun c hc => (hu.2 c hc).1)
    (Or.inr (replicate_space_head (by omega) _))]
  rw [words_pad_token hq.1 (fun c hc => (hq.2 c hc).1)
    (Or.inr (replicate_space_head (by omega) _))]
  rw [words_pad_token hh.1 (fun c hc => (hh.2 c hc).1)
    (Or.inr ⟨'\n', [], rfl, by decide⟩)]
  rw [words_newline]

lemma line_parse_entry5 {wid tu tq th tc : PStr}
    (hw : CleanTok wid) (hu : CleanTok tu) (hq : CleanTok tq) (hh : CleanTok th)
    (hc : CleanTok tc) (hlq : tq.length ≤ 9) (hlh : th.length ≤ 9)
    (hlc : tc.length ≤ 9) :
    line_parse (wid ++ ' ' ::
        (rjust 2 tu ++ (rjust 10 tq ++ (rjust 10 th ++ (rjust 10 tc ++ ['\n']))))) =
      [wid, tu, tq, th, tc] := by
  have hX : ∀ c ∈ rjust 2 tu ++ (rjust 10 tq ++ (rjust 10 th ++ (rjust 10 tc ++ ['\n']))),
      c ≠ '#' :=
    noHash_append (noHash_rjust hu)
      (noHash_append (noHash_rjust hq)
        (noHash_append (noHash_rjust hh) (noHash_append (noHash_rjust hc) noHash_newline)))
  have hall : ∀ c ∈ wid ++ ' ' ::
      (rjust 2 tu ++ (rjust 10 tq ++ (rjust 10 th ++ (rjust 10 tc ++ ['\n'])))), c ≠ '#' := by
    intro c hmem
    rcases List.mem_append.mp hmem with h1 | h2
    · exact (hw.2 c h1).2
    · rcases List.mem_cons.mp h2 with rfl | h3
      · decide
      · exact hX c h3
  rw [line_parse, dropComment_eq_self hall]
  rw [words_token hw.1 (fun c hmem => (hw.2 c hmem).1) (Or.inr ⟨' ', _, rfl, by decide⟩)]
  rw [words_ws_cons (by decide)]
  simp only [rjust, List.append_assoc]
  rw [words_pad_token hu.1 (fun c hmem => (hu.2 c hmem).1)
    (Or.inr (replicate_space_head (by omega) _))]
  rw [words_pad_token hq.1 (fun c hmem => (hq.2 c hmem).1)
    (Or.inr (replicate_space_head (by omega) _))]
  rw [words_pad_token hh.1 (fun c hmem => (hh.2 c hmem).1)
    (Or.inr (replicate_space_head (by omega) _))]
  rw [words_pad_token hc.1 (fun c hmem => (hc.2 c hmem).1)
    (Or.inr ⟨'\n', [], rfl, by decide⟩)]
  rw [words_newline]

lemma loadEntry_tokens4 {gwt : Bool} {line wid tu tq th : PStr} {u qn qh : Int}
    (hsplit : line_parse line = [wid, tu, tq, th])
    (hu : pyInt? tu = some u) (hq : pyInt? tq = some qn) (hh : pyInt? th = some qh) :
    loadEntry gwt line = .ok ⟨wid, u, qn, qh, []⟩ := by
  rw [loadEntry, hsplit]
  simp [pop_item_str, pop_item_int, hu, hq, hh]

lemma loadEntry_tokens5_false {line wid tu tq th : PStr} {crest : List PStr}
    {u qn qh : Int} (hsplit : line_parse line = wid :: tu :: tq :: th :: crest)
    (hu : pyInt? tu = some u) (hq : pyInt? tq = some qn) (hh : pyInt? th = some qh) :
    loadEntry false line = .ok ⟨wid, u, qn, qh, []⟩ := by
  rw [loadEntry, hsplit]
  simp [pop_item_str, pop_item_int, hu, hq, hh]

lemma loadEntry_tokens5_true {line wid tu tq th tc : PStr} {crest : List PStr}
    {u qn qh cf : Int} (hsplit : line_parse line = wid :: tu :: tq :: th :: tc :: crest)
    (hu : pyInt? tu = some u) (hq : pyInt? tq = some qn) (hh : pyInt? th = some qh)
    (hcf : pyInt? tc = some cf) :
    loadEntry true line = .ok ⟨wid, u, qn, qh, [cf]⟩ := by
  rw [loadEntry, hsplit]
  simp [pop_item_str, pop_item_int, hu, hq, hh, hcf]

lemma loadEntry_entryEmit {gwt : Bool} {e : Entry} (he : EntryGood gwt e) :
    loadEntry gwt (entryEmit e) = .ok e := by
  obtain ⟨wid, unit, qnd, qhb, rest⟩ := e
  obtain ⟨hwid, hwc, hq0, hq9, hh0, hh9, hrest⟩ := he
  simp only at hwid hwc hq0 hq9 hh0 hh9 hrest
  have hcw : CleanTok wid := ⟨hwid, hwc⟩
  rcases hrest with hre | ⟨hgwt, hlen, hcf⟩
  · subst hre
    have hsplit := line_parse_entry4 hcw (cleanTok_intRepr unit)
      (cleanTok_intRepr qnd) (cleanTok_intRepr qhb)
      (intRepr_length_le hq0 hq9) (intRepr_length_le hh0 hh9)
    have : entryEmit ⟨wid, unit, qnd, qhb, []⟩ = entryLine4 ⟨wid, unit, qnd, qhb, []⟩ := rfl
    rw [this]
    exact loadEntry_tokens4 hsplit (pyInt?_intRepr unit) (pyInt?_intRepr qnd)
      (pyInt?_intRepr qhb)
  · subst hgwt
    rcases rest with _ | ⟨cf, _ | ⟨c2, t⟩⟩
    · simp at hlen
    · have hb := hcf cf (List.mem_cons_self cf [])
      have hsplit := line_parse_entry5 hcw (cleanTok_intRepr unit)
        (cleanTok_intRepr qnd) (cleanTok_intRepr qhb) (cleanTok_intRepr cf)
        (intRepr_length_le hq0 hq9) (intRepr_length_le hh0 hh9)
        (intRepr_length_le hb.1 (by omega))
      have : entryEmit ⟨wid, unit, qnd, qhb, [cf]⟩ =
          entryLine5 ⟨wid, unit, qnd, qhb, [cf]⟩ cf := rfl
      rw [this]
      exact loadEntry_tokens5_true hsplit (pyInt?_intRepr unit) (pyInt?_intRepr qnd)
        (pyInt?_intRepr qhb) (pyInt?_intRepr cf)
    · simp at hlen

lemma loadEntries_of_map {gwt : Bool} : ∀ (obs : List Entry) (extra : List PStr),
    (∀ e ∈ obs, EntryGood gwt e) →
    loadEntries gwt obs.length (obs.map entryEmit ++ extra) = .ok (obs, extra) := by
  intro obs
  induction obs with
  | nil => intro extra _; simp [loadEntries]
  | cons e obs ih =>
    intro extra hg
    simp only [List.length_cons, List.map_cons, List.cons_append, loadEntries,
      loadEntry_entryEmit (hg e (List.mem_cons_self e obs)),
      ih extra (fun x hx => hg x (List.mem_cons_of_mem e hx))]

lemma loadEntries_ok {gwt : Bool} : ∀ (n : Nat) (lines : List PStr)
    (es : List Entry) (rem : List PStr),
    loadEntries gwt n lines = .ok (es, rem) →
    rem = lines.drop n ∧
      ∀ ext, loadEntries gwt n (lines.take n ++ ext) = .ok (es, ext) := by
  intro n
  induction n with
  | zero =>
    intro lines es rem h
    simp only [loadEntries, Except.ok.injEq, Prod.mk.injEq] at h
    obtain ⟨rfl, rfl⟩ := h
    exact ⟨by simp, fun ext => by simp [loadEntries]⟩
  | succ n ih =>
    intro lines es rem h
    cases lines with
    | nil => simp [loadEntries] at h
    | cons l rest =>
      simp only [loadEntries] at h
      cases hle : loadEntry gwt l with
      | error er => rw [hle] at h; simp at h
      | ok e =>
        rw [hle] at h
        cases hrec : loadEntries gwt n rest with
        | error er => rw [hrec] at h; simp at h
        | ok p =>
          obtain ⟨es', rem'⟩ := p
          rw [hrec] at h
          simp only [Except.ok.injEq, Prod.mk.injEq] at h
          obtain ⟨rfl, rfl⟩ := h
          obtain ⟨hdrop, hext⟩ := ih rest es' rem' hrec
          refine ⟨by simp [hdrop], ?_⟩
          intro ext
          simp only [List.take_succ_cons, List.cons_append, loadEntries, hle, hext ext]

lemma mnwiInit_some_ok {w q b m : Int} {es : List Entry} {rb : Record × Bool}
    (h : mnwiInit w q b m (some es) = .ok rb) :
    rb = (⟨w, q, b, m, es⟩, decide ((es.length : Int) ≠ m)) := by
  rw [mnwiInit] at h
  split_ifs at h
  simp only [Except.ok.injEq] at h
  exact h.symm

/-! ### Whole-file serialization -/

lemma write_file_good (r : Record)
    (hm : r.mnwobs = (r.obs.length : Int))
    (hwr : ∀ e ∈ r.obs, EntryWritable e) :
    write_file r =
      (headingLine :: line1Str r :: line2Str r :: r.obs.filterMap entryLine?, none) := by
  have htn : r.mnwobs.toNat = r.obs.length := by omega
  rw [write_file, Record.obs] at *
  rw [htn, List.range_eq_range',
    writeObs_drop r.wellid_unit_qndflag_qhbflag_concflag 0
      r.wellid_unit_qndflag_qhbflag_concflag (by simp) hwr]

/-! ### Claim theorems -/

/-- Claim C1 (amended): for every validated Record with no count mismatch
whose three header flags fit a 10-character field next to a space
(`< 10^9`), and whose entries are round-trip-safe (`EntryGood`: non-empty
`wellid` free of whitespace and of the comment marker, `qndflag` and
`qhbflag` in `[0, 10^9)`, and either no `concflag` or — in solute-transport
mode — one in `[0, 3]`), parsing the serialized lines with the heading line
dropped and the same solute-transport mode reproduces the Record exactly in
every field, with no count-mismatch warning and no remaining input. -/
theorem claim1_roundtrip (gwt : Bool) (r : Record)
    (hw0 : 0 ≤ r.wel1flag) (hw9 : r.wel1flag < 10 ^ 9)
    (hq0 : 0 ≤ r.qsumflag) (hq9 : r.qsumflag < 10 ^ 9)
    (hb0 : 0 ≤ r.byndflag) (hb9 : r.byndflag < 10 ^ 9)
    (hm : r.mnwobs = (r.obs.length : Int))
    (he : ∀ e ∈ r.obs, EntryGood gwt e) :
    load gwt ((write_file r).1.drop 1) = .ok ((r, false), []) := by
  have hwr : ∀ e ∈ r.obs, EntryWritable e := fun e hx => entryGood_writable (he e hx)
  have hrl : ∀ e ∈ r.obs, e.rest.length ≤ 1 := fun e hx => entryGood_rest_le (he e hx)
  rw [write_file_good r hm hwr, filterMap_entryEmit hrl]
  simp only [List.drop_succ_cons, List.drop_zero]
  have ht1 : line_parse (line1Str r) =
      [intRepr r.wel1flag, intRepr r.qsumflag, intRepr r.byndflag] := by
    rw [line1Str]
    exact line_parse_3fields (cleanTok_intRepr _) (cleanTok_intRepr _)
      (cleanTok_intRepr _) (intRepr_length_le hq0 hq9) (intRepr_length_le hb0 hb9)
  have ht2 : line_parse (line2Str r) = [intRepr r.mnwobs] := by
    rw [line2Str]; exact line_parse_1field (cleanTok_intRepr _)
  have hu : unpack3Int (line_parse (line1Str r)) =
      .ok (r.wel1flag, r.qsumflag, r.byndflag) := by
    rw [ht1, unpack3Int]
    simp [pyInt?_intRepr]
  have hp : pop_item_int (line_parse (line2Str r)) = .ok (r.mnwobs, []) := by
    rw [ht2, pop_item_int]
    simp [pyInt?_intRepr]
  have hload : (if r.mnwobs > 0 then
        loadEntries gwt r.mnwobs.toNat (r.obs.map entryEmit)
      else .ok ([], r.obs.map entryEmit)) = .ok (r.obs, []) := by
    by_cases hpos : r.mnwobs > 0
    · rw [if_pos hpos]
      have hlen : r.mnwobs.toNat = r.obs.length := by omega
      rw [hlen]
      have h0 := loadEntries_of_map r.obs [] he
      simpa using h0
    · rw [if_neg hpos]
      have h0 : r.obs = [] := List.length_eq_zero.mp (by omega)
      rw [h0]
      rfl
  have hinit : mnwiInit r.wel1flag r.qsumflag r.byndflag r.mnwobs (some r.obs) =
      .ok (r, false) := by
    rw [mnwiInit, if_neg (by omega), if_neg (by omega), if_neg (by omega)]
    show Except.ok (⟨r.wel1flag, r.qsumflag, r.byndflag, r.mnwobs, r.obs⟩,
      decide ((r.obs.length : Int) ≠ r.mnwobs)) = .ok (r, false)
    rw [decide_eq_false (show ¬((r.obs.length : Int) ≠ r.mnwobs) by omega)]
    rfl
  simp only [load, hu, hp, hload, hinit]

/-- Claim C1 witness: the round-trip theorem applied to the spec's concrete
scenario A record in solute-transport mode. -/
theorem claim1_roundtrip_witness :
    (∀ e ∈ c1rec.obs, EntryGood true e) ∧
    c1rec.mnwobs = (c1rec.obs.length : Int) ∧
    load true ((write_file c1rec).1.drop 1) = .ok ((c1rec, false), []) :=
  ⟨by decide, by decide,
    claim1_roundtrip true c1rec (by decide) (by decide) (by decide) (by decide)
      (by decide) (by decide) (by decide) (by decide)⟩

/-- Claim C1 counterexample: `c1bad` is a validated Record (all flags
non-negative, every entry's `qndflag` and `qhbflag` non-negative, non-empty
whitespace-free `wellid`) with no count mismatch, yet parsing its serialized
lines (heading dropped, same mode) fails instead of reproducing the record:
its `wellid` starts with the comment marker, so the serialized entry line
tokenizes to nothing. -/
theorem claim1_counterexample :
    c1bad.mnwobs = (c1bad.obs.length : Int) ∧
    0 ≤ c1bad.wel1flag ∧ 0 ≤ c1bad.qsumflag ∧ 0 ≤ c1bad.byndflag ∧
    (∀ e ∈ c1bad.obs, 0 ≤ e.qndflag ∧ 0 ≤ e.qhbflag ∧ e.wellid ≠ [] ∧
      ∀ c ∈ e.wellid, c.isWhitespace = false) ∧
    load true ((write_file c1bad).1.drop 1) =
      .error (Err.formatError "missing required token") := by
  decide

/-- Claim C2 (amended): constructing a Record with `wel1flag`, `qsumflag`
or `byndflag` negative fails with a `ValidationError` (this covers parsing
too, since `load` finishes by running the constructor); a negative
`qndflag`/`qhbflag` or an out-of-range `concflag` does NOT fail
construction — those bounds are only checked at serialize time. -/
theorem claim2_construction_bounds (w q b m : Int) (obs : Option (List Entry))
    (h : w < 0 ∨ q < 0 ∨ b < 0) :
    ∃ msg, mnwiInit w q b m obs = .error (Err.validationError msg) := by
  by_cases h1 : w < 0
  · exact ⟨_, by rw [mnwiInit.eq_def, if_pos h1]⟩
  · by_cases h2 : q < 0
    · exact ⟨_, by rw [mnwiInit.eq_def, if_neg h1, if_pos h2]⟩
    · have h3 : b < 0 := by
        rcases h with h | h | h
        · exact absurd h h1
        · exact absurd h h2
        · exact h
      exact ⟨_, by rw [mnwiInit.eq_def, if_neg h1, if_neg h2, if_pos h3]⟩

/-- Claim C2 witness: constructing with `wel1flag = -1` fails with a
`ValidationError`. -/
theorem claim2_construction_bounds_witness :
    ∃ msg, mnwiInit (-1) 1 1 1 (some []) = .error (Err.validationError msg) :=
  claim2_construction_bounds (-1) 1 1 1 (some []) (Or.inl (by decide))

/-- Claim C2 counterexample: an attempt to construct a Record whose only
entry has `qndflag = -1` SUCCEEDS (with no warning), contradicting the
claim that any negative `qnd_flag` makes construction fail with a
`ValidationError`. -/
theorem claim2_counterexample :
    (⟨"A".toList, 1, -1, 1, []⟩ : Entry).qndflag < 0 ∧
    mnwiInit 1 1 1 1 (some [⟨"A".toList, 1, -1, 1, []⟩]) =
      .ok (⟨1, 1, 1, 1, [⟨"A".toList, 1, -1, 1, []⟩]⟩, false) := by
  decide

/-- Claim C3 (amended): a Record whose `mnwobs` exceeds its number of
(individually writable) entries is constructible — the count mismatch only
produces a warning — but serializing it raises an `IndexError` when the
dataset-3 loop runs past the end of the entry list; serialization does not
succeed. -/
theorem claim3_count_leniency (w q b m : Int) (obs : List Entry)
    (hw : 0 ≤ w) (hq : 0 ≤ q) (hb : 0 ≤ b)
    (hlen : (obs.length : Int) < m)
    (hobs : ∀ e ∈ obs, EntryWritable e) :
    mnwiInit w q b m (some obs) = .ok (⟨w, q, b, m, obs⟩, true) ∧
    (write_file ⟨w, q, b, m, obs⟩).2 = some Err.indexError := by
  constructor
  · rw [mnwiInit, if_neg (by omega), if_neg (by omega), if_neg (by omega)]
    show Except.ok ((⟨w, q, b, m, obs⟩ : Record),
      decide ((obs.length : Int) ≠ m)) = _
    rw [decide_eq_true (show ((obs.length : Int) ≠ m) by omega)]
  · have hov := writeObs_overrun obs 0 m.toNat obs (by simp) hobs (by omega)
    rw [write_file, Record.obs]
    simp only
    rw [List.range_eq_range', hov]

/-- Claim C3 witness: the amended theorem applied to `mnwobs = 5` with the
three concrete entries of `c3rec`. -/
theorem claim3_count_leniency_witness :
    mnwiInit 1 1 1 5 (some c3rec.obs) = .ok (⟨1, 1, 1, 5, c3rec.obs⟩, true) ∧
    (write_file ⟨1, 1, 1, 5, c3rec.obs⟩).2 = some Err.indexError :=
  claim3_count_leniency 1 1 1 5 c3rec.obs (by decide) (by decide) (by decide)
    (by decide) (by decide)

/-- Claim C3 counterexample: the Record with `observation_count = 5` and 3
individually valid entries is constructed with only a warning, but
serializing it does NOT succeed — `write_file` aborts with an `IndexError`
after writing the three entry lines. -/
theorem claim3_counterexample :
    c3rec.mnwobs = 5 ∧ c3rec.obs.length = 3 ∧
    (∀ e ∈ c3rec.obs, EntryWritable e) ∧
    mnwiInit 1 1 1 5 (some c3rec.obs) = .ok (c3rec, true) ∧
    (write_file c3rec).2 = some Err.indexError := by
  decide

/-- Claim C4 (amended): when an entry whose index lies below `mnwobs` —
whether or not `mnwobs` matches the total number of entries — has
`qndflag < 0`, `qhbflag < 0`, or a five-field entry's `concflag` outside
`[0, 3]`, and all entries before it are writable, `write_file` aborts with
a `ValidationError` whose message names the offending field (not the
offending entry): the output contains only the heading, the two header
lines and the lines of the preceding entries — the offending entry's line
is never emitted and nothing after it is written. -/
theorem claim4_serialize_revalidation (r : Record) (pre post : List Entry)
    (bad : Entry)
    (hobs : r.obs = pre ++ bad :: post)
    (hin : (pre.length : Int) < r.mnwobs)
    (hpre : ∀ e ∈ pre, EntryWritable e)
    (hbad : bad.qndflag < 0 ∨ bad.qhbflag < 0 ∨
      (bad.rest.length = 1 ∧ ∀ cf ∈ bad.rest, cf < 0 ∨ 3 < cf)) :
    ∃ msg, write_file r =
      (headingLine :: line1Str r :: line2Str r :: pre.filterMap entryLine?,
        some (Err.validationError msg)) := by
  obtain ⟨msg, hwel⟩ := writeEntryLine_offending hbad
  refine ⟨msg, ?_⟩
  have hbadobs := writeObs_bad_within r.obs 0 pre post bad
    (Err.validationError msg) r.mnwobs.toNat (by simpa using hobs) hpre hwel
    (by omega)
  rw [write_file, Record.obs] at *
  rw [List.range_eq_range', hbadobs]

/-- Claim C4 witness: the amended theorem applied to the count-mismatched
record `c4rec3` (`mnwobs = 2`, three entries), whose second entry has
`qndflag = -1`: the first entry's line is written, the offending line is
not, and the trailing entry is never reached. -/
theorem claim4_serialize_revalidation_witness :
    ∃ msg, write_file c4rec3 =
      (headingLine :: line1Str c4rec3 :: line2Str c4rec3 ::
        List.filterMap entryLine? [⟨"A".toList, 1, 0, 1, []⟩],
        some (Err.validationError msg)) :=
  claim4_serialize_revalidation c4rec3 [⟨"A".toList, 1, 0, 1, []⟩]
    [⟨"C".toList, 1, 0, 1, []⟩] ⟨"B".toList, 1, -1, 1, []⟩
    (by decide) (by decide) (by decide) (by decide)

/-- Claim C4 counterexample: `c4rec` has an observation entry with
`qndflag < 0` (at index 1), yet `write_file` raises no error at all — the
entry lies beyond the `mnwobs = 1` loop range, so its bounds are never
re-checked.  This contradicts the claim for every Record with a negative
entry flag. -/
theorem claim4_counterexample :
    (∃ e ∈ c4rec.obs, e.qndflag < 0) ∧ (write_file c4rec).2 = none := by
  decide

/-- Claim C5 (amended): for every validated Record whose `mnwobs` equals
its number of entries, each entry having 4 or 5 fields with writable flag
values, `write_file` emits — after the heading comment line — the
dataset-1 line of three right-justified 10-character integer fields, the
dataset-2 line with `mnwobs` right-justified in a 10-character field, then
one line per entry (`wellid`, a space, `unit` right-justified in 2
characters, `qndflag` and `qhbflag` right-justified in 10 characters, and,
exactly when the entry carries a `concflag`, one more right-justified
10-character field), every line newline-terminated, with no error. -/
theorem claim5_serialize_format (r : Record)
    (hw : 0 ≤ r.wel1flag) (hq : 0 ≤ r.qsumflag) (hb : 0 ≤ r.byndflag)
    (hm : r.mnwobs = (r.obs.length : Int))
    (he : ∀ e ∈ r.obs, EntryWritable e ∧ e.rest.length ≤ 1) :
    write_file r =
      (headingLine ::
        (rjust 10 (intRepr r.wel1flag) ++ (rjust 10 (intRepr r.qsumflag) ++
          (rjust 10 (intRepr r.byndflag) ++ ['\n']))) ::
        (rjust 10 (intRepr r.mnwobs) ++ ['\n']) ::
        r.obs.map entryEmit, none) := by
  rw [write_file_good r hm (fun e hx => (he e hx).1),
    filterMap_entryEmit (fun e hx => (he e hx).2)]
  rfl

/-- Claim C5 witness: the format theorem applied to the concrete scenario A
record. -/
theorem claim5_serialize_format_witness :
    write_file c1rec =
      (headingLine ::
        (rjust 10 (intRepr c1rec.wel1flag) ++ (rjust 10 (intRepr c1rec.qsumflag) ++
          (rjust 10 (intRepr c1rec.byndflag) ++ ['\n']))) ::
        (rjust 10 (intRepr c1rec.mnwobs) ++ ['\n']) ::
        c1rec.obs.map entryEmit, none) :=
  claim5_serialize_format c1rec (by decide) (by decide) (by decide) (by decide)
    (by decide)

/-- Claim C5 counterexample: `c5rec` is validated (all header flags
non-negative, entry invariants vacuous), yet `write_file` does not produce
the claimed output: because `mnwobs = 1` exceeds the zero entries, it
aborts with an `IndexError` after the heading and the two header lines. -/
theorem claim5_counterexample :
    0 ≤ c5rec.wel1flag ∧ 0 ≤ c5rec.qsumflag ∧ 0 ≤ c5rec.byndflag ∧
    (write_file c5rec).2 = some Err.indexError ∧
    (write_file c5rec).1 = [headingLine, line1Str c5rec, line2Str c5rec] := by
  decide

lemma load_single_entry {gwt : Bool} {line : PStr} {e : Entry}
    (hle : loadEntry gwt line = .ok e) :
    load gwt [dline111, dline1, line] = .ok ((⟨1, 1, 1, 1, [e]⟩, false), []) := by
  have hl1 : unpack3Int (line_parse dline111) = .ok (1, 1, 1) := by decide
  have hl2 : pop_item_int (line_parse dline1) = .ok (1, []) := by decide
  have hent : loadEntries gwt (1 : Int).toNat [line] = .ok ([e], []) := by
    show loadEntries gwt 1 [line] = _
    simp only [loadEntries, hle]
  have hini : mnwiInit 1 1 1 1 (some [e]) = .ok (⟨1, 1, 1, 1, [e]⟩, false) := by
    rw [mnwiInit.eq_def, if_neg (by norm_num), if_neg (by norm_num),
      if_neg (by norm_num)]
    show Except.ok ((⟨1, 1, 1, 1, [e]⟩ : Record),
      decide ((([e] : List Entry).length : Int) ≠ 1)) = _
    rw [decide_eq_false (by norm_num)]
  simp only [load, hl1, hl2, if_pos (show (1 : Int) > 0 by norm_num), hent, hini]

/-- Claim C6: for an entry line tokenizing to five or more tokens (the
first four parsed as `wellid`, `unit`, `qndflag`, `qhbflag`), parsing in
non-solute-transport mode yields an entry with exactly those four fields
and no `concflag` (the fifth token is ignored), while parsing in
solute-transport mode parses the fifth token as an integer `concflag`
attached to the entry. -/
theorem claim6_conditional_concflag (line wid tu tq th tc : PStr)
    (crest : List PStr) (u qn qh : Int)
    (hsplit : line_parse line = wid :: tu :: tq :: th :: tc :: crest)
    (hu : pyInt? tu = some u) (hq : pyInt? tq = some qn)
    (hh : pyInt? th = some qh) :
    load false [dline111, dline1, line] =
      .ok ((⟨1, 1, 1, 1, [⟨wid, u, qn, qh, []⟩]⟩, false), []) ∧
    ∀ cf : Int, pyInt? tc = some cf →
      load true [dline111, dline1, line] =
        .ok ((⟨1, 1, 1, 1, [⟨wid, u, qn, qh, [cf]⟩]⟩, false), []) :=
  ⟨load_single_entry (loadEntry_tokens5_false hsplit hu hq hh),
    fun _ hcf => load_single_entry (loadEntry_tokens5_true hsplit hu hq hh hcf)⟩

/-- Claim C6 witness: the spec's scenario A second entry line, parsed in
both modes. -/
theorem claim6_conditional_concflag_witness :
    load false [dline111, dline1, c6line] =
      .ok ((⟨1, 1, 1, 1, [⟨"WELL-B".toList, 6, 1, 0, []⟩]⟩, false), []) ∧
    load true [dline111, dline1, c6line] =
      .ok ((⟨1, 1, 1, 1, [⟨"WELL-B".toList, 6, 1, 0, [2]⟩]⟩, false), []) := by
  have h := claim6_conditional_concflag c6line ("WELL-B".toList) ("6".toList)
    ("1".toList) ("0".toList) ("2".toList) [] 6 1 0 (by decide) (by decide)
    (by decide) (by decide)
  exact ⟨h.1, h.2 2 (by decide)⟩

/-- Claim C7 (amended): a successful parse consumes exactly 2 header lines
(dataset 1 and the count line — the heading comment line is not part of
what the parser reads) plus `max(observation_count, 0)` entry lines, one
line at a time with no lookahead: the unread remainder is exactly the input
with those lines dropped, and replacing everything after the consumed
prefix leaves the parse result unchanged. -/
theorem claim7_consumption (gwt : Bool) (lines : List PStr)
    (rb : Record × Bool) (rem : List PStr)
    (h : load gwt lines = .ok (rb, rem)) :
    rem = lines.drop (2 + rb.1.mnwobs.toNat) ∧
    ∀ ext, load gwt (lines.take (2 + rb.1.mnwobs.toNat) ++ ext) = .ok (rb, ext) := by
  cases lines with
  | nil => simp [load] at h
  | cons l1 r1 =>
    simp only [load] at h
    cases h1 : unpack3Int (line_parse l1) with
    | error er => rw [h1] at h; simp at h
    | ok wqb =>
      obtain ⟨w, q, b⟩ := wqb
      rw [h1] at h
      dsimp only at h
      cases r1 with
      | nil => simp at h
      | cons l2 r2 =>
        dsimp only at h
        cases h2 : pop_item_int (line_parse l2) with
        | error er => rw [h2] at h; simp at h
        | ok mt =>
          obtain ⟨m, trest⟩ := mt
          rw [h2] at h
          dsimp only at h
          cases h3 : (if m > 0 then loadEntries gwt m.toNat r2
              else .ok ([], r2)) with
          | error er => rw [h3] at h; simp at h
          | ok esr =>
            obtain ⟨es, r3⟩ := esr
            rw [h3] at h
            dsimp only at h
            cases h4 : mnwiInit w q b m (some es) with
            | error er => rw [h4] at h; simp at h
            | ok rb' =>
              rw [h4] at h
              dsimp only at h
              simp only [Except.ok.injEq] at h
              have hrb : rb = rb' := (congrArg Prod.fst h).symm
              have hrem : rem = r3 := (congrArg Prod.snd h).symm
              rw [hrb, hrem]
              have hrbm : rb'.1.mnwobs = m := by
                rw [mnwiInit_some_ok h4]
              have hplus : 2 + m.toNat = m.toNat + 2 := by omega
              by_cases hm : m > 0
              · rw [if_pos hm] at h3
                obtain ⟨hdrop, hext⟩ := loadEntries_ok m.toNat r2 es r3 h3
                constructor
                · rw [hrbm, hplus, hdrop]
                  simp [List.drop_succ_cons]
                · intro ext
                  rw [hrbm, hplus]
                  simp only [List.take_succ_cons, List.cons_append]
                  simp only [load, h1, h2, if_pos hm, hext ext, h4]
              · rw [if_neg hm] at h3
                simp only [Except.ok.injEq, Prod.mk.injEq] at h3
                obtain ⟨he0, hr0⟩ := h3
                have htn : m.toNat = 0 := by omega
                rw [hrbm, htn, ← hr0]
                constructor
                · simp
                · intro ext
                  simp only [List.take_succ_cons, List.cons_append,
                    List.take_zero, List.nil_append]
                  simp only [load, h1, h2, if_neg hm, he0, h4]

/-- Claim C7 witness: a two-line input (`1 1 1` and `0`) parses
successfully; the theorem reports zero remaining lines and stability under
appending arbitrary further lines. -/
theorem claim7_consumption_witness :
    ([] : List PStr) = ([dline111, dline0] : List PStr).drop
      (2 + ((⟨1, 1, 1, 0, []⟩ : Record), false).1.mnwobs.toNat) ∧
    ∀ ext, load false (([dline111, dline0] : List PStr).take
        (2 + ((⟨1, 1, 1, 0, []⟩ : Record), false).1.mnwobs.toNat) ++ ext) =
      .ok (((⟨1, 1, 1, 0, []⟩ : Record), false), ext) :=
  claim7_consumption false [dline111, dline0] ((⟨1, 1, 1, 0, []⟩ : Record), false)
    [] (by decide)

/-- Claim C7 counterexample: parse succeeds on a two-line input, consuming
only the dataset-1 line and the count line — there is no third header
line, contradicting the claim that parsing consumes exactly 3 header
lines. -/
theorem claim7_counterexample :
    load false [dline111, dline0] =
      .ok (((⟨1, 1, 1, 0, []⟩ : Record), false), []) := by
  decide

lemma unpack3Int_cases (toks : List PStr) :
    (∃ a b c x y z, toks = [a, b, c] ∧ pyInt? a = some x ∧ pyInt? b = some y ∧
      pyInt? c = some z ∧ unpack3Int toks = .ok (x, y, z)) ∨
    (∃ msg, unpack3Int toks = .error (Err.formatError msg)) := by
  rcases toks with _ | ⟨a, _ | ⟨b, _ | ⟨c, _ | ⟨d, t⟩⟩⟩⟩
  · exact Or.inr ⟨"wrong number of values to unpack", rfl⟩
  · exact Or.inr ⟨"wrong number of values to unpack", rfl⟩
  · exact Or.inr ⟨"wrong number of values to unpack", rfl⟩
  · cases hx : pyInt? a with
    | none =>
      refine Or.inr ⟨"invalid integer token", ?_⟩
      simp [unpack3Int, hx]
    | some x =>
      cases hy : pyInt? b with
      | none =>
        refine Or.inr ⟨"invalid integer token", ?_⟩
        simp [unpack3Int, hx, hy]
      | some y =>
        cases hz : pyInt? c with
        | none =>
          refine Or.inr ⟨"invalid integer token", ?_⟩
          simp [unpack3Int, hx, hy, hz]
        | some z =>
          exact Or.inl ⟨a, b, c, x, y, z, rfl, hx, hy, hz, by
            simp [unpack3Int, hx, hy, hz]⟩
  · exact Or.inr ⟨"wrong number of values to unpack", rfl⟩

/-- Claim C8 (amended): parsing fails with a `FormatError` whenever the
tokenization of the first line does not consist of exactly three integer
tokens — fewer than three tokens, any non-integer token, but also MORE
than three tokens (the tuple unpacking rejects extras rather than ignoring
them). -/
theorem claim8_dataset1_tokens (gwt : Bool) (l1 : PStr) (rest : List PStr)
    (h : ¬ ∃ a b c x y z, line_parse l1 = [a, b, c] ∧ pyInt? a = some x ∧
      pyInt? b = some y ∧ pyInt? c = some z) :
    ∃ msg, load gwt (l1 :: rest) = .error (Err.formatError msg) := by
  rcases unpack3Int_cases (line_parse l1) with
    ⟨a, b, c, x, y, z, hl, hx, hy, hz, -⟩ | ⟨msg, herr⟩
  · exact absurd ⟨a, b, c, x, y, z, hl, hx, hy, hz⟩ h
  · exact ⟨msg, by simp only [load, herr]⟩

/-- Claim C8 witness: a first line with only two tokens makes the parse
fail with a `FormatError`. -/
theorem claim8_dataset1_tokens_witness :
    ∃ msg, load false [c8line2, dline0] = .error (Err.formatError msg) :=
  claim8_dataset1_tokens false c8line2 [dline0] (by
    rintro ⟨a, b, c, x, y, z, hl, -, -, -⟩
    have hlen := congrArg List.length hl
    simp at hlen
    revert hlen
    decide)

/-- Claim C8 counterexample: a first line of FOUR integer tokens fails the
parse ("too many values to unpack") although the claim says only the first
three tokens participate in the result, which would make it succeed. -/
theorem claim8_counterexample :
    (line_parse c8line4).map pyInt? = [some 1, some 2, some 3, some 4] ∧
    load false [c8line4, dline0] =
      .error (Err.formatError "wrong number of values to unpack") := by
  decide

/-- Claim C9 (amended): when the three header flags pass their
non-negativity checks (which run first), constructing with the observation
list omitted (`None`) raises a `TypeError` at the `len(...)` call,
whatever the count value; no Record is produced and the host model is left
unregistered. -/
theorem claim9_none_observations (host : List Record) (w q b m : Int)
    (hw : 0 ≤ w) (hq : 0 ≤ q) (hb : 0 ≤ b) :
    mnwiConstruct host w q b m none =
      (host, .error (Err.typeError "object of type NoneType has no len()")) := by
  have hini : mnwiInit w q b m none =
      .error (Err.typeError "object of type NoneType has no len()") := by
    rw [mnwiInit.eq_def, if_neg (by omega), if_neg (by omega), if_neg (by omega)]
  simp only [mnwiConstruct, hini]

/-- Claim C9 witness: the amended theorem at non-negative flags and
`mnwobs = 2`. -/
theorem claim9_none_observations_witness :
    mnwiConstruct [] 1 1 1 2 none =
      ([], .error (Err.typeError "object of type NoneType has no len()")) :=
  claim9_none_observations [] 1 1 1 2 (by decide) (by decide) (by decide)

/-- Claim C9 counterexample: with `wel1flag = -1` and the observation list
omitted, the constructor raises the `AssertionError` for `WEL1flag` (a
`ValidationError`), NOT a `TypeError` — the flag asserts run before the
`len(None)` call, contradicting "regardless of the flag values". -/
theorem claim9_counterexample :
    mnwiConstruct [] (-1) 1 1 1 none =
      ([], .error (Err.validationError
        "WEL1flag must be greater than or equal to zero.")) := by
  decide

/-- Claim C10: an observation entry whose Python field list has more than 5
fields (with non-negative `qndflag` and `qhbflag` at positions 3 and 4) is
silently skipped by `write_file`: no line is emitted for it, no error is
raised, and all other (writable) entries are written normally. -/
theorem claim10_skip_long_entries (r : Record) (pre post : List Entry) (e : Entry)
    (hobs : r.obs = pre ++ e :: post)
    (hm : r.mnwobs = (r.obs.length : Int))
    (hlong : 2 ≤ e.rest.length)
    (hq : 0 ≤ e.qndflag) (hh : 0 ≤ e.qhbflag)
    (hpre : ∀ x ∈ pre, EntryWritable x) (hpost : ∀ x ∈ post, EntryWritable x) :
    write_file r = (headingLine :: line1Str r :: line2Str r ::
      (pre.filterMap entryLine? ++ post.filterMap entryLine?), none) := by
  have hew : EntryWritable e := ⟨hq, hh, fun hl => absurd hl (by omega)⟩
  have hwr : ∀ x ∈ r.obs, EntryWritable x := by
    rw [hobs]
    intro x hx
    rcases List.mem_append.mp hx with h1 | h2
    · exact hpre x h1
    · rcases List.mem_cons.mp h2 with rfl | h3
      · exact hew
      · exact hpost x h3
  rw [write_file_good r hm hwr, hobs]
  have hnone : entryLine? e = none := by
    rcases hre : e.rest with _ | ⟨cf, _ | _⟩
    · rw [hre] at hlong; simp at hlong
    · rw [hre] at hlong; simp at hlong
    · simp [entryLine?, hre]
  simp [List.filterMap_append, List.filterMap_cons, hnone]

/-- Claim C10 witness: the skip theorem applied to a record whose only
entry has six fields. -/
theorem claim10_skip_long_entries_witness :
    write_file c10rec = (headingLine :: line1Str c10rec :: line2Str c10rec ::
      (List.filterMap entryLine? [] ++ List.filterMap entryLine? []), none) :=
  claim10_skip_long_entries c10rec [] [] ⟨"A".toList, 1, 0, 1, [0, 0]⟩
    (by decide) (by decide) (by decide) (by decide) (by decide) (by decide)
    (by decide)
